import Mathlib

/-! Formal verification of the core algorithms of the GuardWise companion app:
the Haversine patrol-point geofencing of `GeolocationService.ts`, the
face-descriptor matching, serialization and confidence display of
`FaceApiService` / `FacialScanner.tsx`. Real-valued quantities of the source
are modelled over `ℝ` (with `EReal` where the source uses the `Infinity`
sentinel) and descriptor components over exact rationals. -/

namespace GuardWise

open Classical

/-- State update of the running-minimum scan used by `checkPatrolPoint`
(`if (distance < minDistance) { minDistance = distance; nearestPoint = point }`):
the accumulator is replaced only on a strict improvement, so the first point
attaining the minimum wins. -/
noncomputable def minStep {α : Type} (f : α → EReal) (acc : Option α × EReal) (x : α) :
    Option α × EReal :=
  if f x < acc.2 then (some x, f x) else acc

/-- Running minimum over a list, starting from `(undefined, Infinity)` as in the
source. -/
noncomputable def minFold {α : Type} (f : α → EReal) (l : List α) : Option α × EReal :=
  l.foldl (minStep f) (none, ⊤)

/-- Characterization of the running-minimum scan: either no element improves on the
initial accumulator, or the scan returns the first element attaining the overall
minimum (strictly smaller than everything before it, no larger than anything after
it). -/
theorem foldl_minStep_spec {α : Type} (f : α → EReal) (l : List α) :
    ∀ acc : Option α × EReal,
      (l.foldl (minStep f) acc = acc ∧ ∀ x ∈ l, acc.2 ≤ f x) ∨
      (∃ l₁ x l₂, l = l₁ ++ x :: l₂ ∧ l.foldl (minStep f) acc = (some x, f x) ∧
        f x < acc.2 ∧ (∀ y ∈ l₁, f x < f y) ∧ (∀ y ∈ l₂, f x ≤ f y)) := by
  induction l with
  | nil =>
    intro acc
    exact Or.inl ⟨rfl, by simp⟩
  | cons p t ih =>
    intro acc
    rw [List.foldl_cons]
    by_cases h : f p < acc.2
    · have hstep : minStep f acc p = (some p, f p) := by simp only [minStep, if_pos h]
      rw [hstep]
      rcases ih (some p, f p) with ⟨heq, hall⟩ | ⟨l₁, x, l₂, hdec, heq, hlt, hb, ha⟩
      · exact Or.inr ⟨[], p, t, by simp, heq, h, by simp, fun y hy => hall y hy⟩
      · refine Or.inr ⟨p :: l₁, x, l₂, by rw [hdec]; rfl, heq, lt_trans hlt h, ?_, ha⟩
        intro y hy
        rcases List.mem_cons.mp hy with rfl | hy'
        · exact hlt
        · exact hb y hy'
    · have hstep : minStep f acc p = acc := by simp only [minStep, if_neg h]
      rw [hstep]
      rcases ih acc with ⟨heq, hall⟩ | ⟨l₁, x, l₂, hdec, heq, hlt, hb, ha⟩
      · refine Or.inl ⟨heq, ?_⟩
        intro y hy
        rcases List.mem_cons.mp hy with rfl | hy'
        · exact not_lt.mp h
        · exact hall y hy'
      · refine Or.inr ⟨p :: l₁, x, l₂, by rw [hdec]; rfl, heq, hlt, ?_, ha⟩
        intro y hy
        rcases List.mem_cons.mp hy with rfl | hy'
        · exact lt_of_lt_of_le hlt (not_lt.mp h)
        · exact hb y hy'

/-- The numeric component of the running-minimum scan is the plain minimum fold. -/
theorem foldl_minStep_snd {α : Type} (f : α → EReal) (l : List α) :
    ∀ acc : Option α × EReal,
      (l.foldl (minStep f) acc).2 = l.foldl (fun d x => min d (f x)) acc.2 := by
  induction l with
  | nil => intro acc; rfl
  | cons p t ih =>
    intro acc
    rw [List.foldl_cons, List.foldl_cons]
    by_cases h : f p < acc.2
    · have hstep : minStep f acc p = (some p, f p) := by simp only [minStep, if_pos h]
      rw [hstep, ih (some p, f p)]
      have hmin : min acc.2 (f p) = f p := min_eq_right (le_of_lt h)
      rw [hmin]
    · have hstep : minStep f acc p = acc := by simp only [minStep, if_neg h]
      rw [hstep, ih acc]
      have hmin : min acc.2 (f p) = acc.2 := min_eq_left (not_lt.mp h)
      rw [hmin]

/-- A minimum fold never exceeds its initial accumulator. -/
theorem foldl_min_le_init {α : Type} (f : α → EReal) (l : List α) :
    ∀ acc : EReal, l.foldl (fun d x => min d (f x)) acc ≤ acc := by
  induction l with
  | nil => intro acc; exact le_refl acc
  | cons p t ih =>
    intro acc
    rw [List.foldl_cons]
    exact le_trans (ih (min acc (f p))) (min_le_left _ _)

namespace GeolocationService

/-- `GeolocationPosition` from `GeolocationService.ts`. -/
structure GeolocationPosition where
  latitude : ℝ
  longitude : ℝ
  accuracy : ℝ
  timestamp : ℝ

/-- `PatrolPoint` from `@/types/guard`: a named point with coordinates and its
own containment radius (the `number` fields are modelled over `ℝ`). -/
structure PatrolPoint where
  id : String
  siteId : String
  name : String
  latitude : ℝ
  longitude : ℝ
  radiusMeters : ℝ
  order : ℝ

/-- Modelled from the spec: JavaScript `Math.atan2(y, x)` (a library function),
the angle of the point `(x, y)`, in `(-π, π]`. -/
noncomputable def atan2 (y x : ℝ) : ℝ :=
  if 0 < x then Real.arctan (y / x)
  else if x < 0 then
    (if 0 ≤ y then Real.arctan (y / x) + Real.pi else Real.arctan (y / x) - Real.pi)
  else
    (if 0 < y then Real.pi / 2 else if y < 0 then -(Real.pi / 2) else 0)

/-- `calculateDistance` from `GeolocationService.ts`: Haversine great-circle
distance in meters with Earth radius 6,371,000 m. -/
noncomputable def calculateDistance (lat1 lon1 lat2 lon2 : ℝ) : ℝ :=
  let R : ℝ := 6371000
  let phi1 := lat1 * Real.pi / 180
  let phi2 := lat2 * Real.pi / 180
  let dphi := (lat2 - lat1) * Real.pi / 180
  let dlam := (lon2 - lon1) * Real.pi / 180
  let a := Real.sin (dphi / 2) * Real.sin (dphi / 2) +
    Real.cos phi1 * Real.cos phi2 * Real.sin (dlam / 2) * Real.sin (dlam / 2)
  let c := 2 * atan2 (Real.sqrt a) (Real.sqrt (1 - a))
  R * c

/-- `GeofenceCheckResult` from `GeolocationService.ts`; `distance` lives in `EReal`
because the source initializes the minimum with `Infinity`. -/
structure GeofenceCheckResult where
  isWithinGeofence : Bool
  distance : EReal
  nearestPoint : Option PatrolPoint

/-- JavaScript `Math.round` extended to the infinities (`Math.round(Infinity)` is
`Infinity`); on finite values JavaScript rounds to `⌊x + 1/2⌋`, which is Mathlib's
`round`. -/
noncomputable def roundE (x : EReal) : EReal :=
  if x = ⊤ then ⊤ else if x = ⊥ then ⊥ else ((round x.toReal : ℝ) : EReal)

/-- The distance from a position to a patrol point, as computed inside the
`checkPatrolPoint` loop. -/
noncomputable def pointDistance (position : GeolocationPosition) (point : PatrolPoint) : ℝ :=
  calculateDistance position.latitude position.longitude point.latitude point.longitude

/-- `checkPatrolPoint` from `GeolocationService.ts`: scan all patrol points keeping
the strictly nearest one (initial distance `Infinity`), compare the unrounded
minimum with the nearest point's own radius, and round the reported distance. -/
noncomputable def checkPatrolPoint (position : GeolocationPosition)
    (patrolPoints : List PatrolPoint) : GeofenceCheckResult :=
  let st := minFold (fun point => ((pointDistance position point : ℝ) : EReal)) patrolPoints
  let isWithin : Bool :=
    match st.1 with
    | some p => decide (st.2 ≤ ((p.radiusMeters : ℝ) : EReal))
    | none => false
  ⟨isWithin, roundE st.2, st.1⟩

/-- The minimum patrol-point distance by itself (the spec's "compute the distance
for every point; select the minimum"), `⊤` for an empty route. -/
noncomputable def minDistOf (position : GeolocationPosition)
    (patrolPoints : List PatrolPoint) : EReal :=
  patrolPoints.foldl (fun d point => min d ((pointDistance position point : ℝ) : EReal)) ⊤

/-- Claim C3: on a non-empty patrol route, `checkPatrolPoint` selects the point of
minimum Haversine distance to the position, breaking exact ties in favor of the
first such point in input order, and `within_range` holds exactly when that
minimum distance is at most the selected nearest point's own `radiusMeters`. -/
theorem checkPatrolPoint_spec (position : GeolocationPosition)
    (patrolPoints : List PatrolPoint) (h : patrolPoints ≠ []) :
    ∃ l₁ p l₂, patrolPoints = l₁ ++ p :: l₂ ∧
      (checkPatrolPoint position patrolPoints).nearestPoint = some p ∧
      (∀ q ∈ l₁, pointDistance position p < pointDistance position q) ∧
      (∀ q ∈ patrolPoints, pointDistance position p ≤ pointDistance position q) ∧
      ((checkPatrolPoint position patrolPoints).isWithinGeofence = true ↔
        pointDistance position p ≤ p.radiusMeters) := by
  rcases foldl_minStep_spec (fun point => ((pointDistance position point : ℝ) : EReal))
      patrolPoints (none, ⊤) with ⟨heq, hall⟩ | ⟨l₁, p, l₂, hdec, heq, hlt, hb, ha⟩
  · rcases patrolPoints with _ | ⟨q, t⟩
    · exact absurd rfl h
    · exact absurd (hall q (List.mem_cons_self q t))
        (EReal.coe_lt_top (pointDistance position q)).not_le
  · have hst : minFold (fun point => ((pointDistance position point : ℝ) : EReal))
        patrolPoints = (some p, ((pointDistance position p : ℝ) : EReal)) := heq
    refine ⟨l₁, p, l₂, hdec, ?_, ?_, ?_, ?_⟩
    · simp only [checkPatrolPoint, hst]
    · intro q hq
      exact EReal.coe_lt_coe_iff.mp (hb q hq)
    · intro q hq
      rw [hdec] at hq
      rcases List.mem_append.mp hq with hq' | hq'
      · exact le_of_lt (EReal.coe_lt_coe_iff.mp (hb q hq'))
      · rcases List.mem_cons.mp hq' with rfl | hq''
        · exact le_refl _
        · exact EReal.coe_le_coe_iff.mp (ha q hq'')
    · simp only [checkPatrolPoint, hst]
      rw [decide_eq_true_iff]
      exact EReal.coe_le_coe_iff

/-- Witness for claim C3 at a concrete one-point route. -/
theorem checkPatrolPoint_spec_witness :
    ∃ l₁ p l₂,
      [PatrolPoint.mk "pp1" "site-1" "Main Gate" 12 77 10 1] = l₁ ++ p :: l₂ ∧
      (checkPatrolPoint (GeolocationPosition.mk 12 77 5 0)
        [PatrolPoint.mk "pp1" "site-1" "Main Gate" 12 77 10 1]).nearestPoint = some p ∧
      (∀ q ∈ l₁, pointDistance (GeolocationPosition.mk 12 77 5 0) p <
        pointDistance (GeolocationPosition.mk 12 77 5 0) q) ∧
      (∀ q ∈ [PatrolPoint.mk "pp1" "site-1" "Main Gate" 12 77 10 1],
        pointDistance (GeolocationPosition.mk 12 77 5 0) p ≤
        pointDistance (GeolocationPosition.mk 12 77 5 0) q) ∧
      ((checkPatrolPoint (GeolocationPosition.mk 12 77 5 0)
        [PatrolPoint.mk "pp1" "site-1" "Main Gate" 12 77 10 1]).isWithinGeofence = true ↔
        pointDistance (GeolocationPosition.mk 12 77 5 0) p ≤ p.radiusMeters) :=
  checkPatrolPoint_spec (GeolocationPosition.mk 12 77 5 0)
    [PatrolPoint.mk "pp1" "site-1" "Main Gate" 12 77 10 1] (List.cons_ne_nil _ _)

/-- Claim C4: `checkPatrolPoint` on an empty patrol route returns no nearest point,
`within_range = false` and the `Infinity` sentinel as distance; being a total
function, it does not throw. -/
theorem checkPatrolPoint_empty (position : GeolocationPosition) :
    checkPatrolPoint position [] = ⟨false, ⊤, none⟩ := by
  simp [checkPatrolPoint, minFold, roundE]

/-- Helper: the Haversine distance from a point to itself is zero. -/
theorem calculateDistance_self (lat lon : ℝ) : calculateDistance lat lon lat lon = 0 := by
  simp [calculateDistance, atan2, sub_self, zero_lt_one, Real.arctan_zero]

/-- Helper: the Haversine distance is symmetric in its two points. -/
theorem calculateDistance_symm (lat1 lon1 lat2 lon2 : ℝ) :
    calculateDistance lat1 lon1 lat2 lon2 = calculateDistance lat2 lon2 lat1 lon1 := by
  simp only [calculateDistance]
  have ha : Real.sin ((lat1 - lat2) * Real.pi / 180 / 2) *
        Real.sin ((lat1 - lat2) * Real.pi / 180 / 2) +
      Real.cos (lat2 * Real.pi / 180) * Real.cos (lat1 * Real.pi / 180) *
        Real.sin ((lon1 - lon2) * Real.pi / 180 / 2) *
        Real.sin ((lon1 - lon2) * Real.pi / 180 / 2) =
      Real.sin ((lat2 - lat1) * Real.pi / 180 / 2) *
        Real.sin ((lat2 - lat1) * Real.pi / 180 / 2) +
      Real.cos (lat1 * Real.pi / 180) * Real.cos (lat2 * Real.pi / 180) *
        Real.sin ((lon2 - lon1) * Real.pi / 180 / 2) *
        Real.sin ((lon2 - lon1) * Real.pi / 180 / 2) := by
    have h1 : (lat1 - lat2) * Real.pi / 180 / 2 = -((lat2 - lat1) * Real.pi / 180 / 2) := by
      ring
    have h2 : (lon1 - lon2) * Real.pi / 180 / 2 = -((lon2 - lon1) * Real.pi / 180 / 2) := by
      ring
    rw [h1, h2, Real.sin_neg, Real.sin_neg]
    ring
  rw [ha]

/-- Helper: for two points on the same meridian whose latitudes differ by a small
positive amount, the Haversine formula collapses to the arc length `R · Δφ`. -/
theorem calculateDistance_meridian (lat2 : ℝ) (h0 : 0 < lat2) (h1 : lat2 < 180) :
    calculateDistance 0 0 lat2 0 = 6371000 * (lat2 * Real.pi / 180) := by
  have hpi := Real.pi_pos
  have hx0 : 0 < lat2 * Real.pi / 360 := by nlinarith
  have hxlt : lat2 * Real.pi / 360 < Real.pi / 2 := by
    nlinarith [mul_pos (show (0 : ℝ) < 180 - lat2 by linarith) hpi]
  have hsin : 0 ≤ Real.sin (lat2 * Real.pi / 360) :=
    Real.sin_nonneg_of_nonneg_of_le_pi (le_of_lt hx0) (by nlinarith)
  have hcos : 0 < Real.cos (lat2 * Real.pi / 360) :=
    Real.cos_pos_of_mem_Ioo ⟨by nlinarith, hxlt⟩
  have hcossq : 1 - Real.sin (lat2 * Real.pi / 360) * Real.sin (lat2 * Real.pi / 360) =
      Real.cos (lat2 * Real.pi / 360) * Real.cos (lat2 * Real.pi / 360) := by
    nlinarith [Real.sin_sq_add_cos_sq (lat2 * Real.pi / 360)]
  have hdphi : (lat2 - 0) * Real.pi / 180 / 2 = lat2 * Real.pi / 360 := by ring
  have hdlam : ((0 : ℝ) - 0) * Real.pi / 180 / 2 = 0 := by ring
  have hatan : atan2 (Real.sin (lat2 * Real.pi / 360)) (Real.cos (lat2 * Real.pi / 360)) =
      lat2 * Real.pi / 360 := by
    simp only [atan2, if_pos hcos]
    rw [← Real.tan_eq_sin_div_cos, Real.arctan_tan (by nlinarith) hxlt]
  simp only [calculateDistance, hdphi, hdlam, Real.sin_zero, mul_zero, zero_add, add_zero]
  rw [Real.sqrt_mul_self hsin, hcossq, Real.sqrt_mul_self (le_of_lt hcos), hatan]
  ring

/-- Claim C6 (amended): `calculateDistance` is symmetric and zero on equal points;
the converse direction of the claim — distance zero only for equal coordinate
pairs — fails (see the counterexample). -/
theorem calculateDistance_symm_and_self :
    (∀ lat1 lon1 lat2 lon2 : ℝ,
      calculateDistance lat1 lon1 lat2 lon2 = calculateDistance lat2 lon2 lat1 lon1) ∧
    (∀ lat lon : ℝ, calculateDistance lat lon lat lon = 0) :=
  ⟨calculateDistance_symm, calculateDistance_self⟩

/-- Counterexample to claim C6 as stated: the two distinct coordinate pairs
`(90, 0)` and `(90, 90)` (both at the north pole) are at Haversine distance zero,
so distance zero does not imply equality of the coordinate pairs. -/
theorem calculateDistance_zero_of_ne :
    calculateDistance 90 0 90 90 = 0 ∧
      ¬ (((90 : ℝ), (0 : ℝ)) = ((90 : ℝ), (90 : ℝ))) := by
  constructor
  · have h90 : (90 : ℝ) * Real.pi / 180 = Real.pi / 2 := by ring
    simp [calculateDistance, h90, sub_self, Real.cos_pi_div_two, atan2, zero_lt_one,
      Real.arctan_zero]
  · norm_num

/-- Claim C9: the reported `distance` field is the rounded minimum distance
(`Math.round`, i.e. `⌊x + 1/2⌋`, extended with `Infinity`), while `within_range`
is decided on the unrounded minimum; consequently there are inputs where
`within_range` disagrees with comparing the reported distance field against the
nearest point's radius. -/
theorem checkPatrolPoint_rounds_reported_distance :
    (∀ (position : GeolocationPosition) (patrolPoints : List PatrolPoint),
      (checkPatrolPoint position patrolPoints).distance =
        roundE (minDistOf position patrolPoints)) ∧
    (∀ (position : GeolocationPosition) (patrolPoints : List PatrolPoint) (p : PatrolPoint),
      (checkPatrolPoint position patrolPoints).nearestPoint = some p →
      ((checkPatrolPoint position patrolPoints).isWithinGeofence = true ↔
        minDistOf position patrolPoints ≤ ((p.radiusMeters : ℝ) : EReal))) ∧
    (∃ (position : GeolocationPosition) (pt : PatrolPoint),
      (checkPatrolPoint position [pt]).isWithinGeofence = true ∧
      ¬ (checkPatrolPoint position [pt]).distance ≤ ((pt.radiusMeters : ℝ) : EReal)) := by
  refine ⟨?_, ?_, ?_⟩
  · intro position patrolPoints
    have h2 := foldl_minStep_snd
      (fun point => ((pointDistance position point : ℝ) : EReal)) patrolPoints (none, ⊤)
    simp only [checkPatrolPoint]
    exact congrArg roundE h2
  · intro position patrolPoints p hp
    have h2 := foldl_minStep_snd
      (fun point => ((pointDistance position point : ℝ) : EReal)) patrolPoints (none, ⊤)
    have hsnd : (minFold (fun point => ((pointDistance position point : ℝ) : EReal))
        patrolPoints).2 = minDistOf position patrolPoints := h2
    simp only [checkPatrolPoint] at hp ⊢
    rw [hp, hsnd, decide_eq_true_iff]
  · refine ⟨⟨0, 0, 0, 0⟩, ⟨"p", "s", "n", 63 / 637100, 0, 10997 / 1000, 0⟩, ?_⟩
    have hgt := Real.pi_gt_d6
    have hlt := Real.pi_lt_d6
    have hd : pointDistance ⟨0, 0, 0, 0⟩ ⟨"p", "s", "n", 63 / 637100, 0, 10997 / 1000, 0⟩ =
        7 / 2 * Real.pi := by
      show calculateDistance 0 0 (63 / 637100) 0 = 7 / 2 * Real.pi
      rw [calculateDistance_meridian (63 / 637100) (by norm_num) (by norm_num)]
      ring
    have hfold : minFold
        (fun point => ((pointDistance ⟨0, 0, 0, 0⟩ point : ℝ) : EReal))
        [⟨"p", "s", "n", 63 / 637100, 0, 10997 / 1000, 0⟩] =
        (some ⟨"p", "s", "n", 63 / 637100, 0, 10997 / 1000, 0⟩,
          ((7 / 2 * Real.pi : ℝ) : EReal)) := by
      simp only [minFold, List.foldl_cons, List.foldl_nil, minStep, hd]
      rw [if_pos (EReal.coe_lt_top _)]
    constructor
    · simp only [checkPatrolPoint, hfold]
      exact decide_eq_true (EReal.coe_le_coe_iff.mpr (by nlinarith))
    · have h11 : round (7 / 2 * Real.pi) = 11 := by
        rw [round_eq, Int.floor_eq_iff]
        constructor
        · push_cast
          nlinarith
        · push_cast
          nlinarith
      have hround : roundE ((7 / 2 * Real.pi : ℝ) : EReal) = (((11 : ℝ)) : EReal) := by
        rw [roundE, if_neg (EReal.coe_ne_top _), if_neg (EReal.coe_ne_bot _),
          EReal.toReal_coe, h11]
        norm_num
      simp only [checkPatrolPoint, hfold, hround]
      rw [EReal.coe_le_coe_iff]
      norm_num

/-- Witness for claim C9 at a concrete input where the nearest point exists. -/
theorem checkPatrolPoint_rounds_reported_distance_witness :
    (checkPatrolPoint ⟨0, 0, 0, 0⟩ [⟨"p", "s", "n", 0, 0, 5, 0⟩]).isWithinGeofence = true ↔
      minDistOf ⟨0, 0, 0, 0⟩ [⟨"p", "s", "n", 0, 0, 5, 0⟩] ≤
        (((PatrolPoint.mk "p" "s" "n" 0 0 5 0).radiusMeters : ℝ) : EReal) :=
  checkPatrolPoint_rounds_reported_distance.2.1 ⟨0, 0, 0, 0⟩ [⟨"p", "s", "n", 0, 0, 5, 0⟩]
    ⟨"p", "s", "n", 0, 0, 5, 0⟩
    (by simp [checkPatrolPoint, minFold, minStep, pointDistance, calculateDistance_self,
      EReal.coe_lt_top])

end GeolocationService

namespace FaceApiService

/-- Modelled from the spec: `faceapi.euclideanDistance` (library code not in the
repository): the Euclidean distance between two descriptors. Descriptor
components (`float32` in the source) are modelled as exact rationals. -/
noncomputable def euclideanDistance (descriptor1 descriptor2 : List ℚ) : ℝ :=
  Real.sqrt (((descriptor1.zip descriptor2).map
    (fun p => ((p.1 - p.2 : ℚ) : ℝ) ^ 2)).sum)

/-- `calculateDistance` from `FaceApiService` (delegates to the library's
Euclidean distance). -/
noncomputable def calculateDistance (descriptor1 descriptor2 : List ℚ) : ℝ :=
  euclideanDistance descriptor1 descriptor2

/-- `descriptorsMatch` from `FaceApiService`: true iff the distance is strictly
below the threshold. -/
noncomputable def descriptorsMatch (descriptor1 descriptor2 : List ℚ)
    (threshold : ℝ) : Bool :=
  decide (calculateDistance descriptor1 descriptor2 < threshold)

/-- Claim C2: `descriptorsMatch` returns true exactly when the Euclidean distance
is strictly below the threshold; in particular it is false at the boundary
threshold equal to the distance itself. -/
theorem descriptorsMatch_iff_lt (descriptor1 descriptor2 : List ℚ) (threshold : ℝ)
    (h : descriptor1.length = descriptor2.length) :
    (descriptorsMatch descriptor1 descriptor2 threshold = true ↔
      calculateDistance descriptor1 descriptor2 < threshold) ∧
    descriptorsMatch descriptor1 descriptor2
      (calculateDistance descriptor1 descriptor2) = false :=
  ⟨decide_eq_true_iff, decide_eq_false (lt_irrefl _)⟩

/-- Witness for claim C2 on concrete one-component descriptors. -/
theorem descriptorsMatch_iff_lt_witness :
    ((descriptorsMatch [0] [0] 1 = true ↔ calculateDistance [0] [0] < 1) ∧
      descriptorsMatch [0] [0] (calculateDistance [0] [0]) = false) :=
  descriptorsMatch_iff_lt [0] [0] 1 (by decide)

/-- `LabeledFaceDescriptors`: a label with its enrolled descriptors. -/
structure LabeledFaceDescriptors where
  label : String
  descriptors : List (List ℚ)

/-- `FaceMatcher`: the labeled descriptors plus a distance threshold. -/
structure FaceMatcher where
  labeledDescriptors : List LabeledFaceDescriptors
  threshold : ℝ

/-- A face match as returned by the matcher. -/
structure FaceMatch where
  label : String
  distance : EReal

/-- `createFaceMatcher` from `FaceApiService`: wrap the stored descriptors into a
matcher with the given threshold (default 0.6 at the call sites). -/
def createFaceMatcher (labeledDescriptors : List LabeledFaceDescriptors)
    (threshold : ℝ) : FaceMatcher :=
  ⟨labeledDescriptors, threshold⟩

/-- Modelled from the spec: a label's minimum distance to the probe ("for each
label, compute the minimum distance between `probe` and any descriptor enrolled
under that label"), `⊤` if the label has no descriptors. -/
noncomputable def labelDist (probe : List ℚ) (ld : LabeledFaceDescriptors) : EReal :=
  ld.descriptors.foldl (fun m d => min m ((euclideanDistance probe d : ℝ) : EReal)) ⊤

/-- Modelled from the spec: `FaceMatcher.findBestMatch` (library code not in the
repository): select the label with the globally minimum distance to the probe
(the first such label on ties); if that minimum distance is at or above the
threshold, the returned label is the sentinel string "unknown". -/
noncomputable def findBestMatch (matcher : FaceMatcher) (probe : List ℚ) : FaceMatch :=
  match minFold (labelDist probe) matcher.labeledDescriptors with
  | (some ld, d) =>
    if d < ((matcher.threshold : ℝ) : EReal) then ⟨ld.label, d⟩ else ⟨"unknown", d⟩
  | (none, d) => ⟨"unknown", d⟩

/-- `matchFace` from `FaceApiService`: ask the matcher for the best match and map
the "unknown" sentinel label to `none`. -/
noncomputable def matchFace (matcher : FaceMatcher) (descriptor : List ℚ) :
    Option (String × EReal) :=
  let m := findBestMatch matcher descriptor
  if m.label = "unknown" then none else some (m.label, m.distance)

/-- The spec's `bestMatch`: create a matcher over a labeled set, then match a
probe descriptor (`createFaceMatcher` followed by `matchFace`). -/
noncomputable def bestMatch (labeledDescriptors : List LabeledFaceDescriptors)
    (threshold : ℝ) (probe : List ℚ) : Option (String × EReal) :=
  matchFace (createFaceMatcher labeledDescriptors threshold) probe

/-- Helper: a label with at least one enrolled descriptor has finite minimum
distance. -/
theorem labelDist_lt_top (probe : List ℚ) (ld : LabeledFaceDescriptors)
    (h : ld.descriptors ≠ []) : labelDist probe ld < ⊤ := by
  rcases hd : ld.descriptors with _ | ⟨d, t⟩
  · exact absurd hd h
  · calc labelDist probe ld ≤ ((euclideanDistance probe d : ℝ) : EReal) := by
          rw [labelDist, hd, List.foldl_cons]
          exact le_trans (foldl_min_le_init _ t _) (min_le_right _ _)
    _ < ⊤ := EReal.coe_lt_top _

/-- Counterexample to claim C1 as stated: enrolling a descriptor under the label
"unknown" at distance 0 from the probe makes `bestMatch` return `none` even
though not every label's minimum distance is at or above the threshold. -/
theorem bestMatch_unknown_label_counterexample :
    ¬ ((bestMatch [⟨"unknown", [[0]]⟩] (6 / 10) [0] = none) ↔
      (∀ ld ∈ [LabeledFaceDescriptors.mk "unknown" [[0]]],
        ((6 / 10 : ℝ) : EReal) ≤ labelDist [0] ld)) := by
  have heucl : euclideanDistance [(0 : ℚ)] [0] = 0 := by
    simp [euclideanDistance]
  have hld : labelDist [(0 : ℚ)] ⟨"unknown", [[0]]⟩ = ((0 : ℝ) : EReal) := by
    simp only [labelDist, List.foldl_cons, List.foldl_nil, heucl]
    exact min_eq_right le_top
  have hfold : minFold (labelDist [(0 : ℚ)]) [⟨"unknown", [[0]]⟩] =
      (some ⟨"unknown", [[0]]⟩, ((0 : ℝ) : EReal)) := by
    simp only [minFold, List.foldl_cons, List.foldl_nil, minStep, hld]
    rw [if_pos (EReal.coe_lt_top _)]
  have hnone : bestMatch [⟨"unknown", [[0]]⟩] (6 / 10) [0] = none := by
    simp only [bestMatch, matchFace, createFaceMatcher, findBestMatch, hfold]
    rw [if_pos (EReal.coe_lt_coe_iff.mpr (by norm_num))]
    simp
  intro hiff
  have hge := hiff.mp hnone ⟨"unknown", [[0]]⟩ (List.mem_singleton_self _)
  rw [hld] at hge
  exact absurd (EReal.coe_le_coe_iff.mp hge) (by norm_num)

/-- Claim C1 (amended): for a non-empty labeled set in which no label is the
sentinel string "unknown" and every label has at least one enrolled descriptor,
`bestMatch` returns `none` exactly when every label's minimum distance to the
probe is at or above the threshold; otherwise it returns the first label of
globally minimal distance, together with that distance. -/
theorem bestMatch_spec (lds : List LabeledFaceDescriptors) (threshold : ℝ)
    (probe : List ℚ) (hne : lds ≠ [])
    (hunk : ∀ ld ∈ lds, ld.label ≠ "unknown")
    (hdesc : ∀ ld ∈ lds, ld.descriptors ≠ []) :
    (bestMatch lds threshold probe = none ↔
      ∀ ld ∈ lds, ((threshold : ℝ) : EReal) ≤ labelDist probe ld) ∧
    (∀ label d, bestMatch lds threshold probe = some (label, d) →
      ∃ l₁ ld l₂, lds = l₁ ++ ld :: l₂ ∧ label = ld.label ∧ d = labelDist probe ld ∧
        labelDist probe ld < ((threshold : ℝ) : EReal) ∧
        (∀ q ∈ l₁, labelDist probe ld < labelDist probe q) ∧
        (∀ q ∈ lds, labelDist probe ld ≤ labelDist probe q)) := by
  rcases foldl_minStep_spec (labelDist probe) lds (none, ⊤) with
    ⟨heq, hall⟩ | ⟨l₁, ld, l₂, hdec, heq, hlt, hb, ha⟩
  · rcases lds with _ | ⟨q, t⟩
    · exact absurd rfl hne
    · exact absurd (hall q (List.mem_cons_self q t))
        (labelDist_lt_top probe q (hdesc q (List.mem_cons_self q t))).not_le
  · have hfold : minFold (labelDist probe) lds = (some ld, labelDist probe ld) := heq
    have hmem : ld ∈ lds := by
      rw [hdec]
      exact List.mem_append_right _ (List.mem_cons_self _ _)
    have hallq : ∀ q ∈ lds, labelDist probe ld ≤ labelDist probe q := by
      intro q hq
      rw [hdec] at hq
      rcases List.mem_append.mp hq with hq' | hq'
      · exact le_of_lt (hb q hq')
      · rcases List.mem_cons.mp hq' with rfl | hq''
        · exact le_refl _
        · exact ha q hq''
    by_cases hth : labelDist probe ld < ((threshold : ℝ) : EReal)
    · have hsome : bestMatch lds threshold probe =
          some (ld.label, labelDist probe ld) := by
        simp only [bestMatch, matchFace, createFaceMatcher, findBestMatch, hfold]
        rw [if_pos hth]
        simp only []
        rw [if_neg (hunk ld hmem)]
      constructor
      · refine iff_of_false (by simp [hsome]) ?_
        intro hforall
        exact absurd (hforall ld hmem) (not_le.mpr hth)
      · intro label d hsome'
        rw [hsome] at hsome'
        have hpair := Option.some.inj hsome'
        refine ⟨l₁, ld, l₂, hdec, (congrArg Prod.fst hpair).symm,
          (congrArg Prod.snd hpair).symm, hth, hb, hallq⟩
    · have hnone : bestMatch lds threshold probe = none := by
        simp only [bestMatch, matchFace, createFaceMatcher, findBestMatch, hfold]
        rw [if_neg hth]
        simp only []
        exact if_pos trivial
      constructor
      · refine iff_of_true hnone ?_
        intro q hq
        exact le_trans (not_lt.mp hth) (hallq q hq)
      · intro label d hsome'
        rw [hnone] at hsome'
        exact Option.noConfusion hsome'

/-- Witness for claim C1 (amended) on a concrete one-label set. -/
theorem bestMatch_spec_witness :
    ((bestMatch [⟨"guard-1", [[0]]⟩] (6 / 10) [0] = none ↔
      ∀ ld ∈ [LabeledFaceDescriptors.mk "guard-1" [[0]]],
        ((6 / 10 : ℝ) : EReal) ≤ labelDist [0] ld) ∧
    (∀ label d, bestMatch [⟨"guard-1", [[0]]⟩] (6 / 10) [0] = some (label, d) →
      ∃ l₁ ld l₂, [LabeledFaceDescriptors.mk "guard-1" [[0]]] = l₁ ++ ld :: l₂ ∧
        label = ld.label ∧ d = labelDist [0] ld ∧
        labelDist [0] ld < ((6 / 10 : ℝ) : EReal) ∧
        (∀ q ∈ l₁, labelDist [0] ld < labelDist [0] q) ∧
        (∀ q ∈ [LabeledFaceDescriptors.mk "guard-1" [[0]]],
          labelDist [0] ld ≤ labelDist [0] q))) :=
  bestMatch_spec [⟨"guard-1", [[0]]⟩] (6 / 10) [0]
    (List.cons_ne_nil _ _) (by decide) (by decide)

/-- Claim C10: `matchFace` maps the literal label "unknown" to `none`; in
particular an identity enrolled under the label "unknown" can never be reported
as a match. -/
theorem matchFace_unknown_sentinel :
    (∀ (matcher : FaceMatcher) (probe : List ℚ),
      (findBestMatch matcher probe).label = "unknown" → matchFace matcher probe = none) ∧
    (∀ (lds : List LabeledFaceDescriptors) (threshold : ℝ) (probe : List ℚ) (d : EReal),
      bestMatch lds threshold probe ≠ some ("unknown", d)) := by
  constructor
  · intro matcher probe h
    simp only [matchFace]
    rw [if_pos h]
  · intro lds threshold probe d h
    simp only [bestMatch, matchFace] at h
    by_cases hl : (findBestMatch (createFaceMatcher lds threshold) probe).label = "unknown"
    · rw [if_pos hl] at h
      exact Option.noConfusion h
    · rw [if_neg hl] at h
      exact hl (congrArg Prod.fst (Option.some.inj h))

/-- Witness for claim C10: with no enrolled labels the matcher reports the
sentinel, and `matchFace` returns `none`. -/
theorem matchFace_unknown_sentinel_witness :
    matchFace (createFaceMatcher [] (6 / 10)) [0] = none :=
  matchFace_unknown_sentinel.1 (createFaceMatcher [] (6 / 10)) [0] rfl

/-- `detectSingleFace` from `FaceApiService`, with the frame's detection outcome
(the external neural network) supplied as an oracle argument: throws a typed
error when the models are not loaded, otherwise returns the detected descriptor
or `null` (`detection?.descriptor || null`). -/
def detectSingleFace (modelsLoaded : Bool) (detection : Option (List ℚ)) :
    Except String (Option (List ℚ)) :=
  if modelsLoaded = false then
    Except.error "Face API models not loaded. Call loadFaceApiModels() first."
  else
    Except.ok detection

/-- Claim C8: no face detected yields `ok none`, which is not an error; models
not loaded yields a typed error, distinct from the no-face outcome. -/
theorem detectSingleFace_spec :
    (detectSingleFace true none = Except.ok none) ∧
    (∀ detection, detectSingleFace false detection =
      Except.error "Face API models not loaded. Call loadFaceApiModels() first.") ∧
    (∀ detection, detectSingleFace false detection ≠ Except.ok none) :=
  ⟨rfl, fun _ => rfl, fun _ h => Except.noConfusion h⟩

/-- The decimal digit character for `d` in `0`–`9`. -/
def digitChar (d : ℕ) : Char := Char.ofNat (48 + d)

/-- Decimal digit characters of a natural number, most significant first. -/
def natToChars (n : ℕ) : List Char :=
  if n = 0 then ['0'] else (Nat.digits 10 n).reverse.map digitChar

/-- Signed decimal digit characters of an integer. -/
def intToChars (i : ℤ) : List Char :=
  if i < 0 then '-' :: natToChars i.natAbs else natToChars i.natAbs

/-- Modelled from the spec: the exact textual form of one descriptor component.
`JSON.stringify` / `JSON.parse` are library code not in the repository, and the
source's `float32` components are modelled as exact rationals, so a component is
printed losslessly as `numerator/denominator`. -/
def ratToChars (q : ℚ) : List Char := intToChars q.num ++ '/' :: natToChars q.den

/-- Comma-join of serialized components, as in a JSON array body. -/
def joinComma : List (List Char) → List Char
  | [] => []
  | [p] => p
  | p :: ps => p ++ ',' :: joinComma ps

/-- `descriptorToString` from `FaceApiService`: serialize a descriptor to a
bracketed, comma-separated textual array of its components (the shape of
`JSON.stringify(Array.from(descriptor))`). -/
def descriptorToString (descriptor : List ℚ) : String :=
  String.mk ('[' :: joinComma (descriptor.map ratToChars) ++ [']'])

/-- Whether a character is a decimal digit. -/
def isDigitChar (c : Char) : Bool := 48 ≤ c.toNat && c.toNat ≤ 57

/-- The numeric value of a digit character. -/
def charToDigit (c : Char) : ℕ := c.toNat - 48

/-- Read a leading run of decimal digits; fails if there is none. -/
def parseNat (l : List Char) : Option (ℕ × List Char) :=
  if l.takeWhile isDigitChar = [] then none
  else some ((l.takeWhile isDigitChar).foldl (fun a c => a * 10 + charToDigit c) 0,
    l.dropWhile isDigitChar)

/-- Read an optionally negated run of decimal digits. -/
def parseInt (l : List Char) : Option (ℤ × List Char) :=
  if l.head? = some '-' then (parseNat l.tail).map (fun p => (-(p.1 : ℤ), p.2))
  else (parseNat l).map (fun p => ((p.1 : ℤ), p.2))

/-- Read one serialized component, requiring the whole input to be consumed. -/
def parseRat (l : List Char) : Option ℚ :=
  match parseInt l with
  | none => none
  | some (n, rest) =>
    match rest with
    | [] => none
    | c :: rest2 =>
      if c = '/' then
        match parseNat rest2 with
        | some (d, []) => some ((n : ℚ) / (d : ℚ))
        | _ => none
      else none

/-- Split a character list at commas. -/
def splitOnComma : List Char → List (List Char)
  | [] => [[]]
  | c :: rest =>
    match splitOnComma rest with
    | [] => [[]]
    | g :: gs => if c = ',' then [] :: g :: gs else (c :: g) :: gs

/-- Read all comma-separated components. -/
def parseEntries : List (List Char) → Option (List ℚ)
  | [] => some []
  | g :: gs =>
    match parseRat g, parseEntries gs with
    | some q, some qs => some (q :: qs)
    | _, _ => none

/-- `stringToDescriptor` from `FaceApiService`: parse the textual array back into
a descriptor (`JSON.parse` is library code not in the repository; failure is
`none` where the source would throw). -/
def stringToDescriptor (s : String) : Option (List ℚ) :=
  match s.data with
  | c :: rest =>
    if c = '[' ∧ rest.getLast? = some ']' then
      if rest.dropLast = [] then some []
      else parseEntries (splitOnComma rest.dropLast)
    else none
  | [] => none

/-- Helper: digit characters round-trip through their numeric value. -/
theorem charToDigit_digitChar {d : ℕ} (h : d < 10) : charToDigit (digitChar d) = d := by
  interval_cases d <;> rfl

/-- Helper: digit characters are recognized as digits. -/
theorem isDigitChar_digitChar {d : ℕ} (h : d < 10) : isDigitChar (digitChar d) = true := by
  interval_cases d <;> rfl

/-- Helper: a digit character is not a comma. -/
theorem digit_ne_comma {c : Char} (h : isDigitChar c = true) : c ≠ ',' := by
  intro hc
  subst hc
  exact absurd h (by decide)

/-- Helper: the digit run of natToChars is all digits. -/
theorem natToChars_all_digits (n : ℕ) : ∀ c ∈ natToChars n, isDigitChar c = true := by
  intro c hc
  rw [natToChars] at hc
  by_cases h : n = 0
  · rw [if_pos h] at hc
    rcases List.mem_singleton.mp hc with rfl
    rfl
  · rw [if_neg h] at hc
    simp only [List.mem_map, List.mem_reverse] at hc
    obtain ⟨d, hd, rfl⟩ := hc
    exact isDigitChar_digitChar (Nat.digits_lt_base (by norm_num) hd)

/-- Helper: natToChars is never empty. -/
theorem natToChars_ne_nil (n : ℕ) : natToChars n ≠ [] := by
  rw [natToChars]
  by_cases h : n = 0
  · rw [if_pos h]
    exact List.cons_ne_nil _ _
  · rw [if_neg h]
    intro hnil
    rcases List.map_eq_nil_iff.mp hnil with hrev
    exact h (Nat.digits_eq_nil_iff_eq_zero.mp (List.reverse_eq_nil_iff.mp hrev))

/-- Helper: takeWhile and dropWhile split an all-digit prefix exactly when the
remainder does not begin with a digit. -/
theorem takeWhile_digits_append (l rest : List Char)
    (hl : ∀ c ∈ l, isDigitChar c = true)
    (hrest : ∀ c, rest.head? = some c → isDigitChar c = false) :
    (l ++ rest).takeWhile isDigitChar = l ∧ (l ++ rest).dropWhile isDigitChar = rest := by
  induction l with
  | nil =>
    cases rest with
    | nil => exact ⟨rfl, rfl⟩
    | cons c t =>
      have hc : isDigitChar c = false := hrest c rfl
      rw [List.nil_append]
      constructor
      · simp [List.takeWhile_cons, hc]
      · simp [List.dropWhile_cons, hc]
  | cons c t ih =>
    have hc : isDigitChar c = true := hl c (List.mem_cons_self c t)
    have iht := ih (fun x hx => hl x (List.mem_cons_of_mem c hx))
    rw [List.cons_append]
    constructor
    · simp [List.takeWhile_cons, hc, iht.1]
    · simp [List.dropWhile_cons, hc, iht.2]

/-- Helper: folding the digit characters of a digit list accumulates its value. -/
theorem foldl_digits_map (l : List ℕ) (hl : ∀ d ∈ l, d < 10) :
    ∀ a : ℕ, (l.map digitChar).foldl (fun a c => a * 10 + charToDigit c) a =
      a * 10 ^ l.length + Nat.ofDigits 10 l.reverse := by
  induction l with
  | nil =>
    intro a
    simp [Nat.ofDigits]
  | cons d t ih =>
    intro a
    rw [List.map_cons, List.foldl_cons, charToDigit_digitChar (hl d (List.mem_cons_self d t)),
      ih (fun x hx => hl x (List.mem_cons_of_mem d hx)) (a * 10 + d),
      List.reverse_cons, Nat.ofDigits_append, Nat.ofDigits_singleton,
      List.length_reverse, List.length_cons]
    ring

/-- Helper: the printed digits of a natural number evaluate back to it. -/
theorem foldl_natToChars (n : ℕ) :
    (natToChars n).foldl (fun a c => a * 10 + charToDigit c) 0 = n := by
  rw [natToChars]
  by_cases h : n = 0
  · rw [if_pos h, h]
    rfl
  · rw [if_neg h,
      foldl_digits_map (Nat.digits 10 n).reverse
        (fun d hd => Nat.digits_lt_base (by norm_num) (List.mem_reverse.mp hd)) 0,
      List.reverse_reverse, zero_mul, zero_add, Nat.ofDigits_digits]

/-- Helper: parseNat consumes exactly a printed natural number. -/
theorem parseNat_natToChars (n : ℕ) (rest : List Char)
    (hrest : ∀ c, rest.head? = some c → isDigitChar c = false) :
    parseNat (natToChars n ++ rest) = some (n, rest) := by
  obtain ⟨htake, hdrop⟩ :=
    takeWhile_digits_append (natToChars n) rest (natToChars_all_digits n) hrest
  rw [parseNat, htake, hdrop, if_neg (natToChars_ne_nil n), foldl_natToChars]

/-- Helper: parseInt consumes exactly a printed integer. -/
theorem parseInt_intToChars (i : ℤ) (rest : List Char)
    (hrest : ∀ c, rest.head? = some c → isDigitChar c = false) :
    parseInt (intToChars i ++ rest) = some (i, rest) := by
  rw [intToChars]
  by_cases h : i < 0
  · rw [if_pos h, List.cons_append, parseInt, List.head?_cons, if_pos rfl, List.tail_cons,
      parseNat_natToChars i.natAbs rest hrest, Option.map_some']
    have habs : -(i.natAbs : ℤ) = i := by omega
    rw [habs]
  · have hne : (natToChars i.natAbs ++ rest).head? ≠ some '-' := by
      rcases hcons : natToChars i.natAbs with _ | ⟨c, t⟩
      · exact absurd hcons (natToChars_ne_nil _)
      · rw [List.cons_append, List.head?_cons]
        intro hc
        have hdig := natToChars_all_digits i.natAbs c
          (by rw [hcons]; exact List.mem_cons_self c t)
        rw [Option.some.inj hc] at hdig
        exact absurd hdig (by decide)
    rw [if_neg h, parseInt, if_neg hne, parseNat_natToChars i.natAbs rest hrest,
      Option.map_some']
    have habs : (i.natAbs : ℤ) = i := by omega
    rw [habs]

/-- Helper: parseRat inverts ratToChars. -/
theorem parseRat_ratToChars (q : ℚ) : parseRat (ratToChars q) = some q := by
  have hInt : parseInt (intToChars q.num ++ '/' :: natToChars q.den) =
      some (q.num, '/' :: natToChars q.den) :=
    parseInt_intToChars q.num ('/' :: natToChars q.den)
      (fun c hc => by rw [List.head?_cons] at hc; rw [← Option.some.inj hc]; rfl)
  have hDen : parseNat (natToChars q.den ++ []) = some (q.den, []) :=
    parseNat_natToChars q.den [] (fun c hc => by exact absurd hc (by simp))
  rw [List.append_nil] at hDen
  rw [ratToChars]
  simp only [parseRat, hInt, hDen, Rat.num_div_den]
  exact if_pos trivial

/-- Helper: splitOnComma always yields at least one group. -/
theorem splitOnComma_ne_nil (l : List Char) : splitOnComma l ≠ [] := by
  induction l with
  | nil => exact List.cons_ne_nil _ _
  | cons c t ih =>
    rcases hsp : splitOnComma t with _ | ⟨g, gs⟩
    · exact absurd hsp ih
    · by_cases hc : c = ','
      · simp only [splitOnComma, hsp, if_pos hc]
        exact List.cons_ne_nil _ _
      · simp only [splitOnComma, hsp, if_neg hc]
        exact List.cons_ne_nil _ _

/-- Helper: a comma-free list is a single group. -/
theorem splitOnComma_no_comma (l : List Char) (hl : ∀ c ∈ l, c ≠ ',') :
    splitOnComma l = [l] := by
  induction l with
  | nil => rfl
  | cons c t ih =>
    simp only [splitOnComma, ih (fun x hx => hl x (List.mem_cons_of_mem c hx)),
      if_neg (hl c (List.mem_cons_self c t))]

/-- Helper: splitting after a comma-free prefix and a comma peels one group. -/
theorem splitOnComma_append (l rest : List Char) (hl : ∀ c ∈ l, c ≠ ',') :
    splitOnComma (l ++ ',' :: rest) = l :: splitOnComma rest := by
  induction l with
  | nil =>
    rw [List.nil_append]
    rcases hsp : splitOnComma rest with _ | ⟨g, gs⟩
    · exact absurd hsp (splitOnComma_ne_nil rest)
    · simp only [splitOnComma, hsp]
      exact if_pos trivial
  | cons c t ih =>
    rw [List.cons_append]
    rcases hsp : splitOnComma (t ++ ',' :: rest) with _ | ⟨g, gs⟩
    · exact absurd hsp (splitOnComma_ne_nil _)
    · have iht := ih (fun x hx => hl x (List.mem_cons_of_mem c hx))
      rw [hsp] at iht
      simp only [splitOnComma, hsp, if_neg (hl c (List.mem_cons_self c t))]
      obtain ⟨rfl, rfl⟩ := List.cons.inj iht
      rfl

/-- Helper: splitting a comma-join of comma-free groups recovers the groups. -/
theorem splitOnComma_joinComma (parts : List (List Char)) (hne : parts ≠ [])
    (hfree : ∀ p ∈ parts, ∀ c ∈ p, c ≠ ',') :
    splitOnComma (joinComma parts) = parts := by
  induction parts with
  | nil => exact absurd rfl hne
  | cons p ps ih =>
    cases ps with
    | nil => exact splitOnComma_no_comma p (hfree p (List.mem_cons_self _ _))
    | cons r rs =>
      rw [show joinComma (p :: r :: rs) = p ++ ',' :: joinComma (r :: rs) from rfl,
        splitOnComma_append p _ (hfree p (List.mem_cons_self _ _)),
        ih (List.cons_ne_nil _ _) (fun x hx => hfree x (List.mem_cons_of_mem p hx))]

/-- Helper: each entry of parseEntries inverts its serialization. -/
theorem parseEntries_map (d : List ℚ) : parseEntries (d.map ratToChars) = some d := by
  induction d with
  | nil => rfl
  | cons q qs ih =>
    rw [List.map_cons]
    simp only [parseEntries, parseRat_ratToChars q, ih]

/-- Helper: no printed component contains a comma. -/
theorem ratToChars_ne_comma (q : ℚ) : ∀ c ∈ ratToChars q, c ≠ ',' := by
  intro c hc
  rw [ratToChars] at hc
  rcases List.mem_append.mp hc with h | h
  · rw [intToChars] at h
    by_cases hneg : q.num < 0
    · rw [if_pos hneg] at h
      rcases List.mem_cons.mp h with rfl | h'
      · decide
      · exact digit_ne_comma (natToChars_all_digits _ c h')
    · rw [if_neg hneg] at h
      exact digit_ne_comma (natToChars_all_digits _ c h)
  · rcases List.mem_cons.mp h with rfl | h'
    · decide
    · exact digit_ne_comma (natToChars_all_digits _ c h')

/-- Helper: a serialized body between the brackets is parsed entry-wise. -/
theorem stringToDescriptor_mk (body : List Char) :
    stringToDescriptor (String.mk ('[' :: body ++ [']'])) =
      if body = [] then some [] else parseEntries (splitOnComma body) := by
  show (if '[' = '[' ∧ (body ++ [']']).getLast? = some ']' then
      if (body ++ [']']).dropLast = [] then some []
      else parseEntries (splitOnComma ((body ++ [']']).dropLast))
    else none) = _
  rw [List.getLast?_concat, List.dropLast_concat, if_pos ⟨rfl, rfl⟩]

/-- Claim C5: deserializing the serialized textual form of a descriptor returns
the descriptor unchanged, element-wise. -/
theorem stringToDescriptor_descriptorToString (descriptor : List ℚ) :
    stringToDescriptor (descriptorToString descriptor) = some descriptor := by
  rcases descriptor with _ | ⟨q, qs⟩
  · rfl
  · have hbody : joinComma ((q :: qs).map ratToChars) ≠ [] := by
      rcases qs with _ | ⟨r, rs⟩
      · rw [List.map_cons, List.map_nil,
          show joinComma [ratToChars q] = ratToChars q from rfl, ratToChars]
        simp
      · rw [List.map_cons, List.map_cons,
          show joinComma (ratToChars q :: ratToChars r :: rs.map ratToChars) =
            ratToChars q ++ ',' :: joinComma (ratToChars r :: rs.map ratToChars) from rfl]
        simp
    have hfree : ∀ p ∈ (q :: qs).map ratToChars, ∀ c ∈ p, c ≠ ',' := by
      intro p hp
      obtain ⟨r, hr, rfl⟩ := List.mem_map.mp hp
      exact ratToChars_ne_comma r
    rw [show descriptorToString (q :: qs) =
        String.mk ('[' :: joinComma ((q :: qs).map ratToChars) ++ [']']) from rfl,
      stringToDescriptor_mk, if_neg hbody,
      splitOnComma_joinComma ((q :: qs).map ratToChars) (by simp) hfree,
      parseEntries_map]

end FaceApiService

namespace FacialScanner

/-- The match-confidence percentage displayed by `FacialScanner.tsx`:
`Math.round((1 - matchDistance) * 100)`, with JavaScript `Math.round` being
`⌊x + 1/2⌋`, Mathlib's `round`. -/
def matchConfidencePercent (matchDistance : ℚ) : ℤ :=
  round ((1 - matchDistance) * 100)

/-- Counterexample to claim C7 as stated: at match distance `3/2` the displayed
confidence is `-50`, not the value `0` obtained by clamping `1 - d` to `[0, 1]`. -/
theorem matchConfidencePercent_not_clamped :
    matchConfidencePercent (3 / 2) ≠ round (((max 0 (min 1 (1 - 3 / 2))) * 100 : ℚ)) := by
  have h1 : min (1 : ℚ) (1 - 3 / 2) = 1 - 3 / 2 := min_eq_right (by norm_num)
  have h2 : max (0 : ℚ) (1 - 3 / 2) = 0 := max_eq_left (by norm_num)
  rw [h1, h2, matchConfidencePercent, round_eq, round_eq]
  have hA : ⌊((1 : ℚ) - 3 / 2) * 100 + 1 / 2⌋ = -50 := by
    rw [Int.floor_eq_iff]
    norm_num
  have hB : ⌊(0 : ℚ) * 100 + 1 / 2⌋ = 0 := by
    rw [Int.floor_eq_iff]
    norm_num
  rw [hA, hB]
  norm_num

/-- Claim C7 (amended): for match distances in `[0, 1]` the displayed confidence
agrees with rounding the clamped `1 - d`; in general it is the unclamped
`round((1 - d) · 100)`, which is negative for distances of 2 or more (and already
`-50` at distance `3/2`, see the counterexample). -/
theorem matchConfidencePercent_spec :
    (∀ d : ℚ, 0 ≤ d → d ≤ 1 →
      matchConfidencePercent d = round ((max 0 (min 1 (1 - d))) * 100)) ∧
    (∀ d : ℚ, 2 ≤ d → matchConfidencePercent d < 0) := by
  constructor
  · intro d h0 h1
    have hmin : min 1 (1 - d) = 1 - d := min_eq_right (by linarith)
    have hmax : max 0 (1 - d) = 1 - d := max_eq_right (by linarith)
    rw [matchConfidencePercent, hmin, hmax]
  · intro d hd
    rw [matchConfidencePercent, round_eq]
    have h : (1 - d) * 100 + 1 / 2 < ((0 : ℤ) : ℚ) := by push_cast; linarith
    exact Int.floor_lt.mpr h

/-- Witness for claim C7 (amended) at distances `1` and `2`. -/
theorem matchConfidencePercent_spec_witness :
    matchConfidencePercent 1 = round (((max 0 (min 1 (1 - 1))) * 100 : ℚ)) ∧
    matchConfidencePercent 2 < 0 :=
  ⟨matchConfidencePercent_spec.1 1 (by decide) (by decide),
    matchConfidencePercent_spec.2 2 (by decide)⟩

end FacialScanner

end GuardWise
